import Mathlib

/-!
Verification development for the website-monitor pipeline (`src/monitor.py`).

The program is a single linear pipeline: read the target list from the
environment, fetch every target over HTTP, hash the body, compare against the
previously persisted URL-to-hash mapping, persist the fresh mapping, and
notify (email and Discord webhook) about targets whose hash changed.

The shallow embedding below translates each Python function into a total Lean
function.  External collaborators (the HTTP client, SMTP, the filesystem) are
modelled by their observable interfaces: an HTTP fetch outcome is a value of
`FetchOutcome`, the state file is an optional string (its content), and the
outcomes of the SMTP connection test and of the two delivery attempts are
boolean inputs.  Machine-level facts that the code relies on are reproduced
faithfully: SHA-256 is implemented bit-for-bit over byte lists, Python's
`json.dump(..., indent=2)` / `json.load` pair is implemented character level
(including `ensure_ascii` escaping), and `requests.Response.raise_for_status`
raises exactly for HTTP statuses in `[400, 600)`.
-/

set_option maxRecDepth 16000

/-! ## SHA-256 over byte lists (model of Python's `hashlib.sha256(...).hexdigest()`)

Bytes and 32-bit words are represented as `Nat` with explicit reduction
modulo `2^32` (`w32`) wherever 32-bit overflow matters. -/

def w32 : Nat := 4294967296

def rotr32 (n x : Nat) : Nat := ((x >>> n) ||| (x <<< (32 - n))) % w32

def shaCh (e f g : Nat) : Nat := (e &&& f) ^^^ ((e ^^^ (w32 - 1)) &&& g)

def shaMaj (a b c : Nat) : Nat := (a &&& b) ^^^ (a &&& c) ^^^ (b &&& c)

def bsig0 (x : Nat) : Nat := rotr32 2 x ^^^ rotr32 13 x ^^^ rotr32 22 x

def bsig1 (x : Nat) : Nat := rotr32 6 x ^^^ rotr32 11 x ^^^ rotr32 25 x

def ssig0 (x : Nat) : Nat := rotr32 7 x ^^^ rotr32 18 x ^^^ (x >>> 3)

def ssig1 (x : Nat) : Nat := rotr32 17 x ^^^ rotr32 19 x ^^^ (x >>> 10)

def shaK : List Nat :=
  [1116352408, 1899447441, 3049323471, 3921009573,
   961987163, 1508970993, 2453635748, 2870763221,
   3624381080, 310598401, 607225278, 1426881987,
   1925078388, 2162078206, 2614888103, 3248222580,
   3835390401, 4022224774, 264347078, 604807628,
   770255983, 1249150122, 1555081692, 1996064986,
   2554220882, 2821834349, 2952996808, 3210313671,
   3336571891, 3584528711, 113926993, 338241895,
   666307205, 773529912, 1294757372, 1396182291,
   1695183700, 1986661051, 2177026350, 2456956037,
   2730485921, 2820302411, 3259730800, 3345764771,
   3516065817, 3600352804, 4094571909, 275423344,
   430227734, 506948616, 659060556, 883997877,
   958139571, 1322822218, 1537002063, 1747873779,
   1955562222, 2024104815, 2227730452, 2361852424,
   2428436474, 2756734187, 3204031479, 3329325298]

structure ShaState where
  a : Nat
  b : Nat
  c : Nat
  d : Nat
  e : Nat
  f : Nat
  g : Nat
  h : Nat

def shaH0 : ShaState :=
  ⟨1779033703, 3144134277, 1013904242, 2773480762,
   1359893119, 2600822924, 528734635, 1541459225⟩

def shaRound (st : ShaState) (kw : Nat × Nat) : ShaState :=
  let t1 := (st.h + bsig1 st.e + shaCh st.e st.f st.g + kw.1 + kw.2) % w32
  let t2 := (bsig0 st.a + shaMaj st.a st.b st.c) % w32
  ⟨(t1 + t2) % w32, st.a, st.b, st.c, (st.d + t1) % w32, st.e, st.f, st.g⟩

def extendSchedule : Nat → List Nat → List Nat
  | 0, acc => acc
  | n + 1, acc =>
      extendSchedule n
        (((ssig1 (acc.getD 1 0) + acc.getD 6 0 + ssig0 (acc.getD 14 0) + acc.getD 15 0) % w32) :: acc)

def bytesToWords : List Nat → List Nat
  | b0 :: b1 :: b2 :: b3 :: rest => (b0 * 16777216 + b1 * 65536 + b2 * 256 + b3) :: bytesToWords rest
  | _ => []

def shaCompress (st : ShaState) (block : List Nat) : ShaState :=
  let w16 := bytesToWords block
  let ws := (extendSchedule 48 w16.reverse).reverse
  let fin := (ws.zip shaK).foldl shaRound st
  ⟨(st.a + fin.a) % w32, (st.b + fin.b) % w32, (st.c + fin.c) % w32, (st.d + fin.d) % w32,
   (st.e + fin.e) % w32, (st.f + fin.f) % w32, (st.g + fin.g) % w32, (st.h + fin.h) % w32⟩

def beBytes8 (x : Nat) : List Nat :=
  [(x >>> 56) % 256, (x >>> 48) % 256, (x >>> 40) % 256, (x >>> 32) % 256,
   (x >>> 24) % 256, (x >>> 16) % 256, (x >>> 8) % 256, x % 256]

def padMessage (msg : List Nat) : List Nat :=
  msg ++ 128 :: List.replicate ((119 - msg.length % 64) % 64) 0 ++ beBytes8 (8 * msg.length)

def toBlocksFuel : Nat → List Nat → List (List Nat)
  | 0, _ => []
  | _, [] => []
  | n + 1, x :: xs => (x :: xs.take 63) :: toBlocksFuel n (xs.drop 63)

def toBlocks (l : List Nat) : List (List Nat) := toBlocksFuel l.length l

def beBytes4 (x : Nat) : List Nat := [(x >>> 24) % 256, (x >>> 16) % 256, (x >>> 8) % 256, x % 256]

def shaDigestBytes (st : ShaState) : List Nat :=
  beBytes4 st.a ++ beBytes4 st.b ++ beBytes4 st.c ++ beBytes4 st.d ++
  beBytes4 st.e ++ beBytes4 st.f ++ beBytes4 st.g ++ beBytes4 st.h

def sha256 (msg : List Nat) : List Nat :=
  shaDigestBytes ((toBlocks (padMessage msg)).foldl shaCompress shaH0)

def hexDigitChar (n : Nat) : Char := if n < 10 then Char.ofNat (48 + n) else Char.ofNat (87 + n)

def bytesToHexChars (l : List Nat) : List Char :=
  (l.map (fun b => [hexDigitChar ((b >>> 4) % 16), hexDigitChar (b % 16)])).flatten

def sha256hex (msg : List Nat) : String := String.mk (bytesToHexChars (sha256 msg))

/-! ## UTF-8 encoding (model of Python's `str.encode()`) -/

def utf8Bytes (c : Char) : List Nat :=
  let n := c.toNat
  if n < 128 then [n]
  else if n < 2048 then [192 + n / 64, 128 + n % 64]
  else if n < 65536 then [224 + n / 4096, 128 + (n / 64) % 64, 128 + n % 64]
  else [240 + n / 262144, 128 + (n / 4096) % 64, 128 + (n / 64) % 64, 128 + n % 64]

def utf8Encode (s : String) : List Nat := (s.toList.map utf8Bytes).flatten

/-! ## Fingerprint engine: `get_page_hash`

A `Response` models the object the HTTP client library hands back for a
completed request: the integer status code, the raw body bytes (Python's
`response.content`) and the body decoded to text by the library (Python's
`response.text`; e.g. for a `latin-1` response each raw byte maps to the code
point of the same value).  `FetchOutcome` models the observable result of the
single `requests.get` call: a completed response, or one of the exception
classes the source catches (`Timeout`, `ConnectionError`, any other
`Exception`).  `raise_for_status` raises `HTTPError` exactly for statuses in
`[400, 600)`, which the source catches and turns into `None`. -/

structure Response where
  status : Nat
  content : List Nat
  text : String

inductive FetchOutcome where
  | ok (r : Response)
  | timeout
  | connError
  | otherError

/-- Model of `get_page_hash` (src/monitor.py:41-70): on a completed response it
lets `raise_for_status` reject 4xx/5xx statuses (caught, returning `None`) and
otherwise hashes `response.text.encode()`; every caught exception becomes
`None`. -/
def get_page_hash (o : FetchOutcome) : Option String :=
  match o with
  | .ok r => if 400 ≤ r.status ∧ r.status < 600 then none else some (sha256hex (utf8Encode r.text))
  | .timeout => none
  | .connError => none
  | .otherError => none

/-! ## Configuration loader (src/monitor.py:203-211)

`websites = [url.strip() for url in websites_env.split(',') if url.strip()]`.
Python's `str.split(',')` and `str.strip()` are modelled over the character
list; the whitespace set covers the ASCII whitespace characters Python
strips. -/

def isPyWs (c : Char) : Bool :=
  c = ' ' || c = Char.ofNat 9 || c = Char.ofNat 10 || c = Char.ofNat 13 ||
  c = Char.ofNat 11 || c = Char.ofNat 12

def stripChars (l : List Char) : List Char :=
  ((l.dropWhile isPyWs).reverse.dropWhile isPyWs).reverse

def pyStrip (s : String) : String := String.mk (stripChars s.toList)

def splitCommaChars : List Char → List Char → List (List Char)
  | [], acc => [acc.reverse]
  | c :: rest, acc =>
      if c = ',' then acc.reverse :: splitCommaChars rest [] else splitCommaChars rest (c :: acc)

def splitComma (s : String) : List String := (splitCommaChars s.toList []).map String.mk

/-- Model of the list comprehension in `main` (src/monitor.py:208): split the
environment value on commas, strip each piece, keep the pieces that are
non-empty after stripping. -/
def parseWebsites (s : String) : List String :=
  ((splitComma s).map pyStrip).filter (fun u => u ≠ "")

/-- Modelled from the spec's words (section 4.1), for comparison with
`parseWebsites`: "splitting the value on commas, trimming surrounding
whitespace from each entry, and discarding entries that are empty after
trimming, preserving the original order". -/
def specTargetList (s : String) : List String :=
  ((splitComma s).filter (fun u => pyStrip u ≠ "")).map pyStrip

/-! ## State comparison loop (src/monitor.py:219-242)

`previous_hashes` and `current_hashes` are Python dicts from URL string to
hash string; they are modelled as association lists with dict semantics:
`dictInsert` updates in place or appends (insertion order), `dictLookup` finds
the unique binding. -/

def dictLookup (d : List (String × String)) (k : String) : Option String :=
  match d with
  | [] => none
  | (k', v) :: rest => if k' = k then some v else dictLookup rest k

def dictInsert (d : List (String × String)) (k v : String) : List (String × String) :=
  match d with
  | [] => [(k, v)]
  | (k', v') :: rest => if k' = k then (k', v) :: rest else (k', v') :: dictInsert rest k v

/-- One iteration of the `for url in websites` loop in `main`: on a truthy
hash (`if current_hash:`) record it in `current_hashes` and append the url to
`changed_sites` when the previous store holds a different hash for it. -/
def checkStep (prev : List (String × String)) (hashOf : String → Option String)
    (acc : List (String × String) × List String) (url : String) :
    List (String × String) × List String :=
  match hashOf url with
  | none => acc
  | some h =>
    if h = "" then acc
    else
      let cur := dictInsert acc.1 url h
      match dictLookup prev url with
      | none => (cur, acc.2)
      | some old => if old = h then (cur, acc.2) else (cur, acc.2 ++ [url])

def checkWebsites (websites : List String) (prev : List (String × String))
    (hashOf : String → Option String) : List (String × String) × List String :=
  websites.foldl (checkStep prev hashOf) ([], [])

/-- The per-url condition under which the loop appends `url` to
`changed_sites`. -/
def changedPred (prev : List (String × String)) (hashOf : String → Option String)
    (url : String) : Bool :=
  match hashOf url with
  | none => false
  | some h =>
    if h = "" then false
    else
      match dictLookup prev url with
      | none => false
      | some old => if old = h then false else true

/-- Python truthiness of `get_page_hash`'s result (`if current_hash:`): a
string is truthy iff non-empty; `None` is falsy. -/
def truthyHash : Option String → Bool
  | none => false
  | some h => !(h == "")

/-! ## Orchestrator `main` (src/monitor.py:195-266)

Inputs are the observable environment of one invocation: the value of
`WEBSITES_TO_MONITOR` (absent or a string), the content of the state file
(absent or a string), the network behaviour (a fetch outcome per url), the
outcome of the upfront `test_email_connection()` call, and the outcomes of
the two delivery attempts (both Python functions catch every exception and
return a boolean, so each is observationally a boolean).  The result records
the exit status, the changed set, the mapping handed to `save_hashes` (absent
when the run aborts before saving), and which notification channels were
invoked with which list. -/

structure RunResult where
  exitCode : Nat
  changed : List String
  saved : Option (List (String × String))
  emailInvoked : Bool
  emailSites : List String
  emailDelivered : Bool
  discordInvoked : Bool
  discordSites : List String
  discordDelivered : Bool

/-! ## State store: JSON serialization (src/monitor.py:72-94)

`save_hashes` writes `json.dump(hashes, f, indent=2)`; `load_previous_hashes`
reads the file with `json.load`, returning `{}` when the file is absent or
unreadable.  Both library calls are reproduced at character level:
`dumpsChars` emits exactly the bytes Python writes for a string-to-string
dict with `indent=2` and the default `ensure_ascii=True` escaping (named
escapes, `\uXXXX` for other control and all non-ASCII characters, surrogate
pairs above U+FFFF), and the parser accepts JSON objects of strings the way
`json.load` does (whitespace-tolerant, strict about raw control characters,
combining surrogate pairs). -/

def lbrace : Char := Char.ofNat 123

def rbrace : Char := Char.ofNat 125

def toHex4 (n : Nat) : List Char :=
  [hexDigitChar (n / 4096 % 16), hexDigitChar (n / 256 % 16),
   hexDigitChar (n / 16 % 16), hexDigitChar (n % 16)]

/-- Python `json` escaping of one character (`ensure_ascii=True`): the
characters of the replacement for `c` in a string literal. -/
def escChar (c : Char) : List Char :=
  if c = '\\' then ['\\', '\\']
  else if c = '"' then ['\\', '"']
  else if c = Char.ofNat 8 then ['\\', 'b']
  else if c = Char.ofNat 12 then ['\\', 'f']
  else if c = Char.ofNat 10 then ['\\', 'n']
  else if c = Char.ofNat 13 then ['\\', 'r']
  else if c = Char.ofNat 9 then ['\\', 't']
  else if c.toNat < 32 then '\\' :: 'u' :: toHex4 c.toNat
  else if c.toNat < 127 then [c]
  else if c.toNat < 65536 then '\\' :: 'u' :: toHex4 c.toNat
  else
    ('\\' :: 'u' :: toHex4 (55296 + (c.toNat - 65536) / 1024)) ++
    ('\\' :: 'u' :: toHex4 (56320 + (c.toNat - 65536) % 1024))

def escList (l : List Char) : List Char := (l.map escChar).flatten

/-- A JSON string literal for `s`, quotes included. -/
def encStr (s : String) : List Char := '"' :: (escList s.toList ++ ['"'])

/-- The characters `json.dump(..., indent=2)` emits after the first member:
for each further member a `,`, a newline, the two-space indent and the
member; then the final newline and closing brace. -/
def membersTail : List (String × String) → List Char
  | [] => '\n' :: [rbrace]
  | (k, v) :: ms =>
      ',' :: '\n' :: ' ' :: ' ' :: (encStr k ++ ':' :: ' ' :: (encStr v ++ membersTail ms))

def dumpsChars : List (String × String) → List Char
  | [] => [lbrace, rbrace]
  | (k, v) :: ms =>
      lbrace :: '\n' :: ' ' :: ' ' :: (encStr k ++ ':' :: ' ' :: (encStr v ++ membersTail ms))

/-- Model of `save_hashes` (src/monitor.py:87-94): the file content produced
by `json.dump(hashes, f, indent=2)`. -/
def save_hashes (hashes : List (String × String)) : String := String.mk (dumpsChars hashes)

def hexVal (c : Char) : Option Nat :=
  if 48 ≤ c.toNat ∧ c.toNat ≤ 57 then some (c.toNat - 48)
  else if 97 ≤ c.toNat ∧ c.toNat ≤ 102 then some (c.toNat - 87)
  else if 65 ≤ c.toNat ∧ c.toNat ≤ 70 then some (c.toNat - 55)
  else none

/-- The single-character JSON escapes accepted after a backslash. -/
def escUnmap (e : Char) : Option Char :=
  if e = '"' then some '"'
  else if e = '\\' then some '\\'
  else if e = '/' then some '/'
  else if e = 'b' then some (Char.ofNat 8)
  else if e = 'f' then some (Char.ofNat 12)
  else if e = 'n' then some (Char.ofNat 10)
  else if e = 'r' then some (Char.ofNat 13)
  else if e = 't' then some (Char.ofNat 9)
  else none

def isJsonWs (c : Char) : Bool :=
  c = ' ' || c = Char.ofNat 9 || c = Char.ofNat 10 || c = Char.ofNat 13

def skipWs (l : List Char) : List Char := l.dropWhile isJsonWs

/-- Body of a JSON string literal (after the opening quote): the decoded
characters and the input remaining after the closing quote.  The fuel bounds
the number of decoded characters; each step consumes at least one input
character, so `length + 1` fuel always suffices. -/
def parseStrBody : Nat → List Char → Option (List Char × List Char)
  | 0, _ => none
  | _ + 1, [] => none
  | fuel + 1, c :: rest =>
    if c = '"' then some ([], rest)
    else if c = '\\' then
      match rest with
      | [] => none
      | e :: rest2 =>
        if e = 'u' then
          match rest2 with
          | h1 :: h2 :: h3 :: h4 :: rest3 =>
            match hexVal h1, hexVal h2, hexVal h3, hexVal h4 with
            | some a, some b, some c2, some d =>
              let n := a * 4096 + b * 256 + c2 * 16 + d
              if 55296 ≤ n ∧ n < 56320 then
                match rest3 with
                | e2 :: u2 :: g1 :: g2 :: g3 :: g4 :: rest4 =>
                  if e2 = '\\' ∧ u2 = 'u' then
                    match hexVal g1, hexVal g2, hexVal g3, hexVal g4 with
                    | some a2, some b2, some c3, some d2 =>
                      let m := a2 * 4096 + b2 * 256 + c3 * 16 + d2
                      if 56320 ≤ m ∧ m < 57344 then
                        match parseStrBody fuel rest4 with
                        | some (cs, rem) =>
                            some (Char.ofNat (65536 + (n - 55296) * 1024 + (m - 56320)) :: cs, rem)
                        | none => none
                      else none
                    | _, _, _, _ => none
                  else none
                | _ => none
              else if 56320 ≤ n ∧ n < 57344 then none
              else
                match parseStrBody fuel rest3 with
                | some (cs, rem) => some (Char.ofNat n :: cs, rem)
                | none => none
            | _, _, _, _ => none
          | _ => none
        else
          match escUnmap e with
          | some c' =>
            match parseStrBody fuel rest2 with
            | some (cs, rem) => some (c' :: cs, rem)
            | none => none
          | none => none
    else if c.toNat < 32 then none
    else
      match parseStrBody fuel rest with
      | some (cs, rem) => some (c :: cs, rem)
      | none => none

/-- A JSON string literal: expects the opening quote at the head of the
input. -/
def parseJString (l : List Char) : Option (String × List Char) :=
  match l with
  | [] => none
  | c :: rest =>
    if c = '"' then
      match parseStrBody (rest.length + 1) rest with
      | some (cs, rem) => some (String.mk cs, rem)
      | none => none
    else none

/-- The members of a JSON object, starting at the first member's opening
quote, consuming the closing brace.  The fuel bounds the number of members;
each member consumes at least one input character. -/
def parseMembers : Nat → List Char → Option (List (String × String) × List Char)
  | 0, _ => none
  | fuel + 1, l =>
    match parseJString l with
    | none => none
    | some (k, r1) =>
      match skipWs r1 with
      | [] => none
      | c :: r3 =>
        if c = ':' then
          match parseJString (skipWs r3) with
          | none => none
          | some (v, r4) =>
            match skipWs r4 with
            | [] => none
            | c2 :: r5 =>
              if c2 = ',' then
                match parseMembers fuel (skipWs r5) with
                | some (ms, rem) => some ((k, v) :: ms, rem)
                | none => none
              else if c2 = rbrace then some ([(k, v)], r5)
              else none
        else none

/-- A JSON object of strings: the parsed members and the remaining input. -/
def parseTopObj (l : List Char) : Option (List (String × String) × List Char) :=
  match skipWs l with
  | [] => none
  | c :: rest =>
    if c = lbrace then
      match skipWs rest with
      | [] => none
      | c2 :: rest2 =>
        if c2 = rbrace then some ([], rest2)
        else parseMembers (rest.length + 1) (c2 :: rest2)
    else none

/-- Model of `json.load` restricted to the string-to-string objects this
program persists: the whole input must be one JSON object. -/
def parseJsonObj (s : String) : Option (List (String × String)) :=
  match parseTopObj s.toList with
  | some (m, rem) => if skipWs rem = [] then some m else none
  | none => none

/-- Model of `load_previous_hashes` (src/monitor.py:72-85): an absent file is
a first run and an unparsable file is treated as corruption, both returning
the empty mapping. -/
def load_previous_hashes (file : Option String) : List (String × String) :=
  match file with
  | none => []
  | some s =>
    match parseJsonObj s with
    | some m => m
    | none => []

/-- Model of `main` (src/monitor.py:195-266).  `env` is `WEBSITES_TO_MONITOR`
(`os.getenv` yields `None` or a string and `if not websites_env` is Python
truthiness, so `none` and `some ""` both exit with status 1), `prevFile` is
the state-file content, `net` gives the outcome of the single GET per url,
`emailWorks` is the outcome of the upfront `test_email_connection()`, and
`emailSendOk` / `discordSendOk` are the outcomes of the delivery attempts. -/
def monitorMain (env : Option String) (prevFile : Option String)
    (net : String → FetchOutcome) (emailWorks emailSendOk discordSendOk : Bool) : RunResult :=
  match env with
  | none => ⟨1, [], none, false, [], false, false, [], false⟩
  | some envStr =>
    if envStr = "" then ⟨1, [], none, false, [], false, false, [], false⟩
    else
      let websites := parseWebsites envStr
      let prev := load_previous_hashes prevFile
      let res := checkWebsites websites prev (fun u => get_page_hash (net u))
      let changed := res.2
      let notify := !changed.isEmpty
      ⟨0, changed, some res.1,
        notify && emailWorks, if notify && emailWorks then changed else [],
        notify && emailWorks && emailSendOk,
        notify, if notify then changed else [],
        notify && discordSendOk⟩

/-! ## Fixtures used by concrete witness runs -/

/-- A network where every fetch fails at the transport level. -/
def fetchFail : String → FetchOutcome := fun _ => FetchOutcome.connError

/-- A network where `https://a.example` serves the body `"x"` and everything
else fails. -/
def fetchOnlyA : String → FetchOutcome := fun u =>
  if u = "https://a.example" then FetchOutcome.ok ⟨200, [120], "x"⟩ else FetchOutcome.connError

/-- A persisted state file recording hash `"H1"` for `https://a.example`. -/
def prevFileA : String := "\x7b\n  \"https://a.example\": \"H1\"\n\x7d"

/-- A completed response whose raw body is the single byte `0xE9` (`é` in
latin-1); the HTTP client decodes it to the one-character text `é`. -/
def latin1Resp : Response := ⟨200, [233], "é"⟩

/-- A completed response with the same decoded text as `latin1Resp` but raw
body bytes in UTF-8. -/
def utf8Resp : Response := ⟨200, [195, 169], "é"⟩

/-- A completed `304 Not Modified` response: a non-2xx status that
`raise_for_status` does not turn into an error. -/
def notModifiedResp : Response := ⟨304, [], ""⟩

/-- A network for the spec scenario: `https://a.example` serves body `"x2"`
and `https://b.example` fails at the transport level. -/
def fetchScenario : String → FetchOutcome := fun u =>
  if u = "https://a.example" then FetchOutcome.ok ⟨200, [120, 50], "x2"⟩ else FetchOutcome.connError

/-! ## Digest shape lemmas -/

def hexAlphabet : List Char := "0123456789abcdef".toList

theorem hexDigitChar_mem : ∀ k, k < 16 → hexDigitChar k ∈ hexAlphabet := by decide

theorem sha256hex_length (m : List Nat) : (sha256hex m).length = 64 := rfl

theorem sha256hex_ne_empty (m : List Nat) : sha256hex m ≠ "" := by
  intro h
  have h2 := congrArg String.length h
  rw [sha256hex_length] at h2
  simp [String.length] at h2

theorem sha256hex_chars (m : List Nat) : ∀ c ∈ (sha256hex m).toList, c ∈ hexAlphabet := by
  intro c hc
  have h0 : (sha256hex m).toList = bytesToHexChars (sha256 m) := rfl
  rw [h0] at hc
  simp only [bytesToHexChars, List.mem_flatten, List.mem_map] at hc
  obtain ⟨l2, ⟨b, _, rfl⟩, hcl⟩ := hc
  simp only [List.mem_cons, List.mem_singleton, List.not_mem_nil, or_false] at hcl
  rcases hcl with rfl | rfl
  · exact hexDigitChar_mem _ (Nat.mod_lt _ (by norm_num))
  · exact hexDigitChar_mem _ (Nat.mod_lt _ (by norm_num))

theorem get_page_hash_ne_empty (o : FetchOutcome) (h : String)
    (hh : get_page_hash o = some h) : h ≠ "" := by
  cases o with
  | ok r =>
    by_cases hs : 400 ≤ r.status ∧ r.status < 600
    · simp [get_page_hash, hs] at hh
    · rw [get_page_hash, if_neg hs] at hh
      have he : sha256hex (utf8Encode r.text) = h := by simpa using hh
      rw [← he]
      exact sha256hex_ne_empty _
  | timeout => simp [get_page_hash] at hh
  | connError => simp [get_page_hash] at hh
  | otherError => simp [get_page_hash] at hh

theorem truthyHash_get_page_hash (o : FetchOutcome) (h : String)
    (hh : get_page_hash o = some h) : truthyHash (get_page_hash o) = true := by
  rw [hh]
  simp [truthyHash, get_page_hash_ne_empty o h hh]

/-! ## Configuration loader lemmas -/

theorem parseWebsites_eq_spec (s : String) : parseWebsites s = specTargetList s := by
  unfold parseWebsites specTargetList
  rw [List.filter_map]
  simp [Function.comp_def]

theorem parseWebsites_mem (v t : String) :
    t ∈ parseWebsites v ↔ t ≠ "" ∧ ∃ piece ∈ splitComma v, pyStrip piece = t := by
  simp only [parseWebsites, List.mem_filter, List.mem_map, decide_eq_true_eq]
  constructor
  · rintro ⟨⟨piece, hp, rfl⟩, hne⟩
    exact ⟨hne, piece, hp, rfl⟩
  · rintro ⟨hne, piece, hp, rfl⟩
    exact ⟨⟨piece, hp, rfl⟩, hne⟩

/-! ## Comparison-loop lemmas -/

theorem dictLookup_insert (d : List (String × String)) (k v u : String) :
    dictLookup (dictInsert d k v) u = if k = u then some v else dictLookup d u := by
  induction d with
  | nil => simp [dictInsert, dictLookup]
  | cons p rest ih =>
    obtain ⟨k', v'⟩ := p
    by_cases h : k' = k
    · subst h
      simp only [dictInsert, if_pos rfl, dictLookup]
      by_cases h2 : k' = u <;> simp [h2]
    · simp only [dictInsert, if_neg h, dictLookup, ih]
      by_cases h2 : k' = u
      · subst h2
        have hku : ¬k = k' := fun hq => h hq.symm
        simp [hku]
      · simp [h2]

theorem checkStep_snd (prev : List (String × String)) (hashOf : String → Option String)
    (acc : List (String × String) × List String) (url : String) :
    (checkStep prev hashOf acc url).2 =
      acc.2 ++ (if changedPred prev hashOf url then [url] else []) := by
  unfold checkStep changedPred
  cases hashOf url with
  | none => simp
  | some h =>
    by_cases hh : h = ""
    · simp [hh]
    · simp only [hh, if_neg, if_false]
      cases dictLookup prev url with
      | none => simp [hh]
      | some old => by_cases ho : old = h <;> simp [hh, ho]

theorem checkStep_fst_lookup (prev : List (String × String)) (hashOf : String → Option String)
    (acc : List (String × String) × List String) (url u : String) :
    dictLookup (checkStep prev hashOf acc url).1 u =
      if url = u ∧ truthyHash (hashOf url) = true then hashOf url else dictLookup acc.1 u := by
  unfold checkStep truthyHash
  cases hv : hashOf url with
  | none => simp
  | some h =>
    by_cases hh : h = ""
    · simp [hh]
    · have ht : (!(h == "")) = true := by simp [hh]
      cases dictLookup prev url with
      | none => simp [ht, dictLookup_insert, hh]
      | some old =>
        by_cases ho : old = h <;> simp [ht, ho, dictLookup_insert, hh]

theorem checkFold_snd (prev : List (String × String)) (hashOf : String → Option String) :
    ∀ (ws : List String) (acc : List (String × String) × List String),
      (List.foldl (checkStep prev hashOf) acc ws).2 =
        acc.2 ++ ws.filter (changedPred prev hashOf) := by
  intro ws
  induction ws with
  | nil => intro acc; simp
  | cons w rest ih =>
    intro acc
    rw [List.foldl_cons, ih, checkStep_snd]
    by_cases hc : changedPred prev hashOf w <;> simp [hc]

theorem checkFold_fst_lookup (prev : List (String × String)) (hashOf : String → Option String) :
    ∀ (ws : List String) (acc : List (String × String) × List String) (u : String),
      dictLookup (List.foldl (checkStep prev hashOf) acc ws).1 u =
        if u ∈ ws ∧ truthyHash (hashOf u) = true then hashOf u else dictLookup acc.1 u := by
  intro ws
  induction ws with
  | nil => intro acc u; simp
  | cons w rest ih =>
    intro acc u
    rw [List.foldl_cons, ih, checkStep_fst_lookup]
    by_cases hw : u = w
    · subst hw
      by_cases ht : truthyHash (hashOf u) = true
      · by_cases hm : u ∈ rest <;> simp [ht, hm]
      · simp [ht]
    · have : ¬(w = u ∧ truthyHash (hashOf w) = true) := fun hc => hw hc.1.symm
      simp only [this, if_neg, if_false]
      by_cases hm : u ∈ rest
      · simp [hm, List.mem_cons]
      · simp [hm, List.mem_cons, hw]

theorem checkWebsites_changed (ws : List String) (prev : List (String × String))
    (hashOf : String → Option String) :
    (checkWebsites ws prev hashOf).2 = ws.filter (changedPred prev hashOf) := by
  unfold checkWebsites
  rw [checkFold_snd]
  rfl

theorem checkWebsites_lookup (ws : List String) (prev : List (String × String))
    (hashOf : String → Option String) (u : String) :
    dictLookup (checkWebsites ws prev hashOf).1 u =
      if u ∈ ws ∧ truthyHash (hashOf u) = true then hashOf u else none := by
  unfold checkWebsites
  rw [checkFold_fst_lookup]
  rfl

theorem changedPred_true_iff (prev : List (String × String)) (hashOf : String → Option String)
    (url : String) :
    changedPred prev hashOf url = true ↔
      ∃ h old, hashOf url = some h ∧ h ≠ "" ∧ dictLookup prev url = some old ∧ old ≠ h := by
  unfold changedPred
  cases hv : hashOf url with
  | none => simp
  | some h =>
    by_cases hh : h = ""
    · subst hh; simp
    · simp only [hh, if_neg, if_false]
      cases ho : dictLookup prev url with
      | none => simp
      | some old =>
        by_cases he : old = h
        · subst he; simp
        · simp [he, hh]

/-! ## JSON round-trip lemmas -/

theorem char_code_range (c : Char) :
    c.toNat < 55296 ∨ (57344 ≤ c.toNat ∧ c.toNat < 1114112) := by
  have h := c.valid
  simp only [UInt32.isValidChar, Nat.isValidChar, Char.toNat] at h ⊢
  omega

theorem hexVal_hexDigitChar : ∀ k, k < 16 → hexVal (hexDigitChar k) = some k := by decide

set_option maxHeartbeats 1000000 in
theorem escChar_length_pos (c : Char) : 1 ≤ (escChar c).length := by
  unfold escChar
  split_ifs <;> simp [toHex4]

theorem escList_length (s : List Char) : s.length ≤ (escList s).length := by
  induction s with
  | nil => simp [escList]
  | cons c cs ih =>
    have h1 := escChar_length_pos c
    simp only [escList, List.map_cons, List.flatten_cons, List.length_append, List.length_cons]
    simp only [escList] at ih
    omega


theorem parseStrBody_esc (e c' : Char) (t : List Char) (f : Nat)
    (hne : ¬e = 'u') (he : escUnmap e = some c') :
    parseStrBody (f + 1) ('\\' :: e :: t) =
      Option.map (fun p => (c' :: p.1, p.2)) (parseStrBody f t) := by
  cases hp : parseStrBody f t <;> simp [parseStrBody, hne, he, hp]

theorem parseStrBody_u (n : Nat) (t : List Char) (f : Nat) (hn : n < 65536)
    (hs1 : ¬(55296 ≤ n ∧ n < 56320)) (hs2 : ¬(56320 ≤ n ∧ n < 57344)) :
    parseStrBody (f + 1) ('\\' :: 'u' :: (toHex4 n ++ t)) =
      Option.map (fun p => (Char.ofNat n :: p.1, p.2)) (parseStrBody f t) := by
  have e1 : hexVal (hexDigitChar (n / 4096 % 16)) = some (n / 4096 % 16) :=
    hexVal_hexDigitChar _ (by omega)
  have e2 : hexVal (hexDigitChar (n / 256 % 16)) = some (n / 256 % 16) :=
    hexVal_hexDigitChar _ (by omega)
  have e3 : hexVal (hexDigitChar (n / 16 % 16)) = some (n / 16 % 16) :=
    hexVal_hexDigitChar _ (by omega)
  have e4 : hexVal (hexDigitChar (n % 16)) = some (n % 16) :=
    hexVal_hexDigitChar _ (by omega)
  have hsum : n / 4096 % 16 * 4096 + n / 256 % 16 * 256 + n / 16 % 16 * 16 + n % 16 = n := by
    omega
  cases hp : parseStrBody f t <;>
    simp [parseStrBody, toHex4, e1, e2, e3, e4, hsum, hs1, hs2, hp]

theorem parseStrBody_sur (n m : Nat) (t : List Char) (f : Nat)
    (hn1 : 55296 ≤ n) (hn2 : n < 56320) (hm1 : 56320 ≤ m) (hm2 : m < 57344) :
    parseStrBody (f + 1) ('\\' :: 'u' :: (toHex4 n ++ '\\' :: 'u' :: (toHex4 m ++ t))) =
      Option.map (fun p => (Char.ofNat (65536 + (n - 55296) * 1024 + (m - 56320)) :: p.1, p.2))
        (parseStrBody f t) := by
  have e1 : hexVal (hexDigitChar (n / 4096 % 16)) = some (n / 4096 % 16) :=
    hexVal_hexDigitChar _ (by omega)
  have e2 : hexVal (hexDigitChar (n / 256 % 16)) = some (n / 256 % 16) :=
    hexVal_hexDigitChar _ (by omega)
  have e3 : hexVal (hexDigitChar (n / 16 % 16)) = some (n / 16 % 16) :=
    hexVal_hexDigitChar _ (by omega)
  have e4 : hexVal (hexDigitChar (n % 16)) = some (n % 16) :=
    hexVal_hexDigitChar _ (by omega)
  have k1 : hexVal (hexDigitChar (m / 4096 % 16)) = some (m / 4096 % 16) :=
    hexVal_hexDigitChar _ (by omega)
  have k2 : hexVal (hexDigitChar (m / 256 % 16)) = some (m / 256 % 16) :=
    hexVal_hexDigitChar _ (by omega)
  have k3 : hexVal (hexDigitChar (m / 16 % 16)) = some (m / 16 % 16) :=
    hexVal_hexDigitChar _ (by omega)
  have k4 : hexVal (hexDigitChar (m % 16)) = some (m % 16) :=
    hexVal_hexDigitChar _ (by omega)
  have hsumN : n / 4096 % 16 * 4096 + n / 256 % 16 * 256 + n / 16 % 16 * 16 + n % 16 = n := by
    omega
  have hsumM : m / 4096 % 16 * 4096 + m / 256 % 16 * 256 + m / 16 % 16 * 16 + m % 16 = m := by
    omega
  have hT : 55296 ≤ n ∧ n < 56320 := ⟨hn1, hn2⟩
  have hU : 56320 ≤ m ∧ m < 57344 := ⟨hm1, hm2⟩
  cases hp : parseStrBody f t <;>
    simp [parseStrBody, toHex4, e1, e2, e3, e4, k1, k2, k3, k4, hsumN, hsumM, hT, hU, hp]

theorem parseStrBody_plain (c : Char) (t : List Char) (f : Nat)
    (h1 : ¬c = '"') (h2 : ¬c = '\\') (h3 : ¬c.toNat < 32) :
    parseStrBody (f + 1) (c :: t) = Option.map (fun p => (c :: p.1, p.2)) (parseStrBody f t) := by
  cases hp : parseStrBody f t <;> simp [parseStrBody, h1, h2, h3, hp]

theorem parseStrBody_step (c : Char) (t : List Char) (f : Nat) :
    parseStrBody (f + 1) (escChar c ++ t) =
      Option.map (fun p => (c :: p.1, p.2)) (parseStrBody f t) := by
  by_cases h1 : c = '\\'
  · subst h1
    exact parseStrBody_esc '\\' '\\' t f (by decide) (by decide)
  · by_cases h2 : c = '"'
    · subst h2
      exact parseStrBody_esc '"' '"' t f (by decide) (by decide)
    · by_cases h3 : c = Char.ofNat 8
      · subst h3
        exact parseStrBody_esc 'b' (Char.ofNat 8) t f (by decide) (by decide)
      · by_cases h4 : c = Char.ofNat 12
        · subst h4
          exact parseStrBody_esc 'f' (Char.ofNat 12) t f (by decide) (by decide)
        · by_cases h5 : c = Char.ofNat 10
          · subst h5
            exact parseStrBody_esc 'n' (Char.ofNat 10) t f (by decide) (by decide)
          · by_cases h6 : c = Char.ofNat 13
            · subst h6
              exact parseStrBody_esc 'r' (Char.ofNat 13) t f (by decide) (by decide)
            · by_cases h7 : c = Char.ofNat 9
              · subst h7
                exact parseStrBody_esc 't' (Char.ofNat 9) t f (by decide) (by decide)
              · by_cases h8 : c.toNat < 32
                · have hesc : escChar c = '\\' :: 'u' :: toHex4 c.toNat := by
                    simp [escChar, h1, h2, h3, h4, h5, h6, h7, h8]
                  rw [hesc]
                  have := parseStrBody_u c.toNat t f (by omega) (by omega) (by omega)
                  rw [Char.ofNat_toNat] at this
                  exact this
                · by_cases h9 : c.toNat < 127
                  · have hesc : escChar c = [c] := by
                      simp [escChar, h1, h2, h3, h4, h5, h6, h7, h8, h9]
                    rw [hesc]
                    exact parseStrBody_plain c t f h2 h1 h8
                  · have hcr := char_code_range c
                    by_cases h10 : c.toNat < 65536
                    · have hesc : escChar c = '\\' :: 'u' :: toHex4 c.toNat := by
                        simp [escChar, h1, h2, h3, h4, h5, h6, h7, h8, h9, h10]
                      rw [hesc]
                      have := parseStrBody_u c.toNat t f h10 (by omega) (by omega)
                      rw [Char.ofNat_toNat] at this
                      exact this
                    · have hesc : escChar c =
                          ('\\' :: 'u' :: toHex4 (55296 + (c.toNat - 65536) / 1024)) ++
                          ('\\' :: 'u' :: toHex4 (56320 + (c.toNat - 65536) % 1024)) := by
                        simp [escChar, h1, h2, h3, h4, h5, h6, h7, h8, h9, h10]
                      rw [hesc]
                      have hstep := parseStrBody_sur (55296 + (c.toNat - 65536) / 1024)
                        (56320 + (c.toNat - 65536) % 1024) t f
                        (by omega) (by omega) (by omega) (by omega)
                      have hchar : Char.ofNat (65536 +
                          (55296 + (c.toNat - 65536) / 1024 - 55296) * 1024 +
                          (56320 + (c.toNat - 65536) % 1024 - 56320)) = c := by
                        rw [show 65536 + (55296 + (c.toNat - 65536) / 1024 - 55296) * 1024 +
                            (56320 + (c.toNat - 65536) % 1024 - 56320) = c.toNat by omega]
                        exact Char.ofNat_toNat c
                      rw [hchar] at hstep
                      exact hstep

theorem parseStrBody_run : ∀ (s : List Char) (f : Nat), s.length + 1 ≤ f → ∀ rest : List Char,
    parseStrBody f (escList s ++ '"' :: rest) = some (s, rest) := by
  intro s
  induction s with
  | nil =>
    intro f hf rest
    cases f with
    | zero => omega
    | succ f' => simp [escList, parseStrBody]
  | cons c cs ih =>
    intro f hf rest
    cases f with
    | zero => omega
    | succ f' =>
      have hL : escList (c :: cs) = escChar c ++ escList cs := by
        simp [escList]
      rw [hL, List.append_assoc, parseStrBody_step, ih f' (by simp at hf ⊢; omega) rest]
      rfl

theorem string_mk_toList (s : String) : String.mk s.toList = s := by
  cases s
  rfl

theorem parseJString_encStr (s : String) (t : List Char) :
    parseJString (encStr s ++ t) = some (s, t) := by
  have hshape : encStr s ++ t = '"' :: (escList s.toList ++ '"' :: t) := by
    simp [encStr]
  rw [hshape]
  have hfuel : s.toList.length + 1 ≤ (escList s.toList ++ '"' :: t).length + 1 := by
    have h := escList_length s.toList
    simp only [List.length_append, List.length_cons]
    omega
  simp only [parseJString, if_pos rfl]
  rw [parseStrBody_run s.toList _ hfuel t]
  simp [string_mk_toList]

theorem skipWs_cons_false {c : Char} {l : List Char} (h : isJsonWs c = false) :
    skipWs (c :: l) = c :: l := by
  simp [skipWs, List.dropWhile_cons, h]

theorem skipWs_cons_true {c : Char} {l : List Char} (h : isJsonWs c = true) :
    skipWs (c :: l) = skipWs l := by
  simp [skipWs, List.dropWhile_cons, h]

theorem skipWs_encStr (s : String) (t : List Char) :
    skipWs (encStr s ++ t) = encStr s ++ t := by
  have hshape : encStr s ++ t = '"' :: (escList s.toList ++ '"' :: t) := by
    simp [encStr]
  rw [hshape, skipWs_cons_false (by decide)]

theorem membersTail_length (ms : List (String × String)) : ms.length ≤ (membersTail ms).length := by
  induction ms with
  | nil => simp [membersTail]
  | cons kv rest ih =>
    obtain ⟨k, v⟩ := kv
    simp only [membersTail, List.length_cons, List.length_append]
    omega

theorem parseMembers_emit : ∀ (ms : List (String × String)) (k v : String) (f : Nat)
    (rest : List Char), ms.length + 1 ≤ f →
    parseMembers f (encStr k ++ ':' :: ' ' :: (encStr v ++ membersTail ms ++ rest)) =
      some ((k, v) :: ms, rest) := by
  intro ms
  induction ms with
  | nil =>
    intro k v f rest hf
    cases f with
    | zero => omega
    | succ f' =>
      simp only [parseMembers, List.append_assoc, parseJString_encStr]
      rw [skipWs_cons_false (by decide)]
      simp only [if_pos rfl]
      rw [skipWs_cons_true (by decide), skipWs_encStr, parseJString_encStr]
      simp only [membersTail, List.cons_append, List.nil_append]
      rw [skipWs_cons_true (by decide), skipWs_cons_false (by decide)]
      simp [rbrace]
  | cons kv ms2 ih =>
    intro k v f rest hf
    obtain ⟨k2, v2⟩ := kv
    cases f with
    | zero => omega
    | succ f' =>
      simp only [parseMembers, List.append_assoc, parseJString_encStr]
      rw [skipWs_cons_false (by decide)]
      simp only [if_pos rfl]
      rw [skipWs_cons_true (by decide), skipWs_encStr, parseJString_encStr]
      simp only [membersTail, List.cons_append, List.append_assoc]
      rw [skipWs_cons_false (by decide)]
      simp only [if_pos rfl]
      rw [skipWs_cons_true (by decide), skipWs_cons_true (by decide),
        skipWs_cons_true (by decide), skipWs_encStr]
      have hrec := ih k2 v2 f' rest (by simp at hf ⊢; omega)
      simp only [List.append_assoc] at hrec
      rw [hrec]
      simp

theorem parseTopObj_emit (k v : String) (ms : List (String × String)) :
    parseTopObj (dumpsChars ((k, v) :: ms)) = some ((k, v) :: ms, []) := by
  simp only [dumpsChars, parseTopObj]
  rw [skipWs_cons_false (by decide)]
  simp only [if_pos rfl]
  rw [skipWs_cons_true (by decide), skipWs_cons_true (by decide),
    skipWs_cons_true (by decide), skipWs_encStr]
  rw [show encStr k ++ (':' :: ' ' :: (encStr v ++ membersTail ms)) =
      '"' :: (escList k.toList ++ '"' :: (':' :: ' ' :: (encStr v ++ membersTail ms))) from by
    simp [encStr]]
  simp only []
  rw [if_neg (by decide : ¬('"' : Char) = rbrace)]
  rw [show ('"' : Char) :: (escList k.toList ++ '"' :: (':' :: ' ' :: (encStr v ++ membersTail ms))) =
      encStr k ++ (':' :: ' ' :: (encStr v ++ membersTail ms)) from by simp [encStr]]
  have hf : ms.length + 1 ≤
      ('\n' :: ' ' :: ' ' :: (encStr k ++ (':' :: ' ' :: (encStr v ++ membersTail ms)))).length
        + 1 := by
    have h := membersTail_length ms
    simp only [List.length_cons, List.length_append]
    omega
  have he := parseMembers_emit ms k v _ [] hf
  rw [List.append_nil] at he
  rw [he]
  simp

theorem load_save_roundtrip (m : List (String × String)) :
    load_previous_hashes (some (save_hashes m)) = m := by
  cases m with
  | nil => rfl
  | cons kv ms =>
    obtain ⟨k, v⟩ := kv
    simp only [load_previous_hashes, save_hashes, parseJsonObj]
    have htl : (String.mk (dumpsChars ((k, v) :: ms))).toList = dumpsChars ((k, v) :: ms) := rfl
    rw [htl, parseTopObj_emit]
    simp [skipWs]

/-! ## Orchestrator field lemmas -/

theorem monitorMain_changed_eq (s : String) (prevFile : Option String)
    (net : String → FetchOutcome) (ew eso dso : Bool) (hs : ¬s = "") :
    (monitorMain (some s) prevFile net ew eso dso).changed =
      (parseWebsites s).filter
        (changedPred (load_previous_hashes prevFile) (fun u => get_page_hash (net u))) := by
  simp [monitorMain, hs, checkWebsites_changed]

theorem monitorMain_saved_eq (s : String) (prevFile : Option String)
    (net : String → FetchOutcome) (ew eso dso : Bool) (hs : ¬s = "") :
    (monitorMain (some s) prevFile net ew eso dso).saved =
      some (checkWebsites (parseWebsites s) (load_previous_hashes prevFile)
        (fun u => get_page_hash (net u))).1 := by
  simp [monitorMain, hs]

theorem monitorMain_saved_blank (prevFile : Option String)
    (net : String → FetchOutcome) (ew eso dso : Bool) :
    (monitorMain (some "") prevFile net ew eso dso).saved = none := rfl

theorem parseWebsites_empty : parseWebsites "" = [] := rfl

/-! ## Claim theorems -/

/-- Claim C1: for every configured target list and previous state, a target
absent from the previous state mapping (first time seen) is never included in
the Changed Set, even when fetched successfully; its fresh fingerprint is
recorded in the persisted state but not reported. -/
theorem claim_C1_first_sight_not_reported
    (s : String) (prevFile : Option String) (net : String → FetchOutcome)
    (ew eso dso : Bool) (url h : String) (m : List (String × String))
    (habs : dictLookup (load_previous_hashes prevFile) url = none)
    (hmem : url ∈ parseWebsites s)
    (hfetch : get_page_hash (net url) = some h)
    (hsaved : (monitorMain (some s) prevFile net ew eso dso).saved = some m) :
    url ∉ (monitorMain (some s) prevFile net ew eso dso).changed ∧
      dictLookup m url = some h := by
  by_cases hs : s = ""
  · subst hs
    rw [monitorMain_saved_blank] at hsaved
    exact absurd hsaved (by simp)
  · constructor
    · rw [monitorMain_changed_eq s prevFile net ew eso dso hs]
      intro hmemf
      have hpred := (List.mem_filter.mp hmemf).2
      obtain ⟨h', old, _, _, hlp, _⟩ :=
        (changedPred_true_iff (load_previous_hashes prevFile)
          (fun u => get_page_hash (net u)) url).mp hpred
      rw [habs] at hlp
      exact absurd hlp (by simp)
    · rw [monitorMain_saved_eq s prevFile net ew eso dso hs] at hsaved
      have hm : m = (checkWebsites (parseWebsites s) (load_previous_hashes prevFile)
          (fun u => get_page_hash (net u))).1 := by
        injection hsaved.symm
      rw [hm, checkWebsites_lookup]
      rw [if_pos ⟨hmem, truthyHash_get_page_hash _ _ hfetch⟩]
      exact hfetch

/-- Claim C2: a target whose fetch fails is absent from both the Changed Set
and the persisted state, and the persisted state holds exactly the current
run's successfully fetched fingerprints: any previous entry for the failed
target is dropped. -/
theorem claim_C2_failed_fetch_dropped
    (s : String) (prevFile : Option String) (net : String → FetchOutcome)
    (ew eso dso : Bool) (url : String) (m : List (String × String))
    (hfail : get_page_hash (net url) = none)
    (hsaved : (monitorMain (some s) prevFile net ew eso dso).saved = some m) :
    url ∉ (monitorMain (some s) prevFile net ew eso dso).changed ∧
    dictLookup m url = none ∧
    (∀ u h', dictLookup m u = some h' ↔ u ∈ parseWebsites s ∧ get_page_hash (net u) = some h') := by
  by_cases hs : s = ""
  · subst hs
    rw [monitorMain_saved_blank] at hsaved
    exact absurd hsaved (by simp)
  · rw [monitorMain_saved_eq s prevFile net ew eso dso hs] at hsaved
    have hm : m = (checkWebsites (parseWebsites s) (load_previous_hashes prevFile)
        (fun u => get_page_hash (net u))).1 := by
      injection hsaved.symm
    refine ⟨?_, ?_, ?_⟩
    · rw [monitorMain_changed_eq s prevFile net ew eso dso hs]
      intro hmemf
      have hpred := (List.mem_filter.mp hmemf).2
      obtain ⟨h', old, hg, _, _, _⟩ :=
        (changedPred_true_iff (load_previous_hashes prevFile)
          (fun u => get_page_hash (net u)) url).mp hpred
      rw [hfail] at hg
      exact absurd hg (by simp)
    · rw [hm, checkWebsites_lookup]
      rw [if_neg (by simp [truthyHash, hfail])]
    · intro u h'
      rw [hm, checkWebsites_lookup]
      constructor
      · intro hlook
        by_cases hc : u ∈ parseWebsites s ∧
            truthyHash (get_page_hash (net u)) = true
        · rw [if_pos hc] at hlook
          exact ⟨hc.1, hlook⟩
        · rw [if_neg hc] at hlook
          exact absurd hlook (by simp)
      · rintro ⟨hu, hg⟩
        rw [if_pos ⟨hu, truthyHash_get_page_hash _ _ hg⟩]
        exact hg

/-- Claim C3 as stated is false on the code: a set but non-empty value of
`WEBSITES_TO_MONITOR` that parses to zero targets (here `","`) passes the
`if not websites_env` truthiness check, so the run completes normally with
exit status 0 even though no targets are configured. -/
theorem claim_C3_counterexample :
    parseWebsites "," = [] ∧
    (monitorMain (some ",") none fetchFail true true true).exitCode = 0 := by
  exact ⟨rfl, rfl⟩

/-- Claim C3 amended: the exit status is 0 exactly when the target-list
environment variable is present and non-empty as a string (fetch failures and
zero changes still exit 0); it is non-zero exactly when the variable is absent
or the empty string.  A non-empty value that parses to an empty target list
still exits 0. -/
theorem claim_C3_amended_exit_status (env prevFile : Option String)
    (net : String → FetchOutcome) (ew eso dso : Bool) :
    (monitorMain env prevFile net ew eso dso).exitCode = 0 ↔
      ∃ s, env = some s ∧ s ≠ "" := by
  cases env with
  | none => simp [monitorMain]
  | some s =>
    by_cases hs : s = "" <;> simp [monitorMain, hs]

/-- Claim C4 as stated is false on the code: when the same URL occurs twice in
the target list and its fetched hash differs from the stored one, it is
appended to `changed_sites` once per occurrence (the comparison always reads
the unmodified `previous_hashes`), so it appears twice, not exactly once. -/
theorem claim_C4_counterexample :
    (monitorMain (some "https://a.example,https://a.example") (some prevFileA) fetchOnlyA
      true true true).changed.count "https://a.example" = 2 := by
  decide

/-- Claim C4 amended: a target whose retrieved body hashes differently from
its stored fingerprint appears in the Changed Set once per occurrence in the
parsed target list; in particular exactly once when the target list has no
duplicates. -/
theorem claim_C4_amended_once_per_occurrence
    (s : String) (prevFile : Option String) (net : String → FetchOutcome)
    (ew eso dso : Bool) (url h old : String)
    (hmem : url ∈ parseWebsites s)
    (hfetch : get_page_hash (net url) = some h)
    (hprev : dictLookup (load_previous_hashes prevFile) url = some old)
    (hne : old ≠ h) :
    (monitorMain (some s) prevFile net ew eso dso).changed.count url =
      (parseWebsites s).count url ∧
    ((parseWebsites s).Nodup →
      (monitorMain (some s) prevFile net ew eso dso).changed.count url = 1) := by
  have hs : ¬s = "" := by
    intro hs
    rw [hs, parseWebsites_empty] at hmem
    exact absurd hmem (by simp)
  have hpred : changedPred (load_previous_hashes prevFile)
      (fun u => get_page_hash (net u)) url = true :=
    (changedPred_true_iff _ _ _).mpr
      ⟨h, old, hfetch, get_page_hash_ne_empty _ _ hfetch, hprev, hne⟩
  have hcount : (monitorMain (some s) prevFile net ew eso dso).changed.count url =
      (parseWebsites s).count url := by
    rw [monitorMain_changed_eq s prevFile net ew eso dso hs]
    exact List.count_filter hpred
  exact ⟨hcount, fun hnd => by rw [hcount]; exact List.count_eq_one_of_mem hnd hmem⟩

/-- Claim C5 as stated is false on the code: the fingerprint hashes
`response.text.encode()` (the UTF-8 re-encoding of the decoded text), not the
raw response body bytes, so for a latin-1 response the fingerprint differs
from the SHA-256 of the raw body, and two responses with different raw body
bytes but equal decoded text get the same fingerprint. -/
theorem claim_C5_counterexample :
    get_page_hash (FetchOutcome.ok latin1Resp) ≠ some (sha256hex latin1Resp.content) ∧
    latin1Resp.content ≠ utf8Resp.content ∧
    get_page_hash (FetchOutcome.ok latin1Resp) = get_page_hash (FetchOutcome.ok utf8Resp) := by
  refine ⟨by decide, by decide, rfl⟩

/-- Claim C5 amended: on every successful fetch the fingerprint is the
lowercase hexadecimal SHA-256 digest of the UTF-8 encoding of the decoded
response text (64 characters over `0-9a-f`), and it is a deterministic
function of that text: responses with identical decoded text always receive
identical fingerprints. -/
theorem claim_C5_amended_fingerprint (r : Response)
    (hok : ¬(400 ≤ r.status ∧ r.status < 600)) :
    get_page_hash (FetchOutcome.ok r) = some (sha256hex (utf8Encode r.text)) ∧
    (sha256hex (utf8Encode r.text)).length = 64 ∧
    (∀ c ∈ (sha256hex (utf8Encode r.text)).toList, c ∈ hexAlphabet) ∧
    (∀ r' : Response, r'.text = r.text → ¬(400 ≤ r'.status ∧ r'.status < 600) →
      get_page_hash (FetchOutcome.ok r') = get_page_hash (FetchOutcome.ok r)) := by
  refine ⟨by simp [get_page_hash, hok], sha256hex_length _, sha256hex_chars _, ?_⟩
  intro r' ht hok'
  simp [get_page_hash, hok, hok', ht]

theorem claim_C5_amended_witness :
    get_page_hash (FetchOutcome.ok ⟨200, [], "abc"⟩) = some (sha256hex (utf8Encode "abc")) ∧
    (sha256hex (utf8Encode "abc")).length = 64 ∧
    (∀ c ∈ (sha256hex (utf8Encode "abc")).toList, c ∈ hexAlphabet) ∧
    (∀ r' : Response, r'.text = "abc" → ¬(400 ≤ r'.status ∧ r'.status < 600) →
      get_page_hash (FetchOutcome.ok r') = get_page_hash (FetchOutcome.ok ⟨200, [], "abc"⟩)) :=
  claim_C5_amended_fingerprint ⟨200, [], "abc"⟩ (by decide)

/-- Claim C6 as stated is false on the code: `raise_for_status` raises only
for statuses in `[400, 600)`, so a completed non-2xx response such as a 304
still produces a fingerprint instead of the failure value `None`. -/
theorem claim_C6_counterexample :
    (notModifiedResp.status < 200 ∨ 299 < notModifiedResp.status) ∧
    get_page_hash (FetchOutcome.ok notModifiedResp) ≠ none := by
  refine ⟨by decide, ?_⟩
  simp [get_page_hash, notModifiedResp]

/-- Claim C6 amended: `get_page_hash` is a total function of the fetch
outcome (it never raises and performs the single modelled GET, so it never
retries); it returns the failure value `None` exactly on timeout, connection
error, any other fault, or a completed response with status in `[400, 600)`,
and on every other completed response it returns the fingerprint. -/
theorem claim_C6_amended_failure_contract (o : FetchOutcome) :
    (get_page_hash o = none ↔
      (o = FetchOutcome.timeout ∨ o = FetchOutcome.connError ∨ o = FetchOutcome.otherError ∨
        ∃ r, o = FetchOutcome.ok r ∧ 400 ≤ r.status ∧ r.status < 600)) ∧
    (∀ r, o = FetchOutcome.ok r → ¬(400 ≤ r.status ∧ r.status < 600) →
      get_page_hash o = some (sha256hex (utf8Encode r.text))) := by
  cases o with
  | ok r =>
    constructor
    · by_cases hc : 400 ≤ r.status ∧ r.status < 600
      · simp [get_page_hash, hc]
      · simp [get_page_hash, hc]
    · rintro r' hr' hok
      have : r = r' := by injection hr'
      subst this
      simp [get_page_hash, hok]
  | timeout => simp [get_page_hash]
  | connError => simp [get_page_hash]
  | otherError => simp [get_page_hash]

theorem claim_C6_amended_witness :
    get_page_hash (FetchOutcome.ok ⟨200, [], "x"⟩) = some (sha256hex (utf8Encode "x")) :=
  (claim_C6_amended_failure_contract (FetchOutcome.ok ⟨200, [], "x"⟩)).2
    ⟨200, [], "x"⟩ rfl (by decide)

/-- Claim C7 as stated is false on the code: when the upfront
`test_email_connection()` fails, `main` skips `send_email_notification`
entirely even though the Changed Set is non-empty, so the email channel is
not invoked. -/
theorem claim_C7_counterexample :
    (monitorMain (some "https://a.example") (some prevFileA) fetchOnlyA
      false true true).changed ≠ [] ∧
    (monitorMain (some "https://a.example") (some prevFileA) fetchOnlyA
      false true true).emailInvoked = false ∧
    (monitorMain (some "https://a.example") (some prevFileA) fetchOnlyA
      false true true).discordInvoked = true := by
  refine ⟨by decide, by decide, by decide⟩

/-- Claim C7 amended: when the Changed Set is non-empty the webhook channel is
always invoked with the full Changed Set, while the email channel is invoked
(with the full Changed Set) exactly when the upfront connection test
succeeded; the channels are independent in that the delivery outcomes of
either channel do not affect the Changed Set, the webhook invocation, or the
exit status. -/
theorem claim_C7_amended_notification
    (s : String) (prevFile : Option String) (net : String → FetchOutcome)
    (ew eso dso : Bool)
    (hch : (monitorMain (some s) prevFile net ew eso dso).changed ≠ []) :
    (monitorMain (some s) prevFile net ew eso dso).discordInvoked = true ∧
    (monitorMain (some s) prevFile net ew eso dso).discordSites =
      (monitorMain (some s) prevFile net ew eso dso).changed ∧
    (monitorMain (some s) prevFile net ew eso dso).emailInvoked = ew ∧
    (ew = true → (monitorMain (some s) prevFile net ew eso dso).emailSites =
      (monitorMain (some s) prevFile net ew eso dso).changed) ∧
    (∀ eso' dso',
      (monitorMain (some s) prevFile net ew eso' dso').changed =
        (monitorMain (some s) prevFile net ew eso dso).changed ∧
      (monitorMain (some s) prevFile net ew eso' dso').discordInvoked =
        (monitorMain (some s) prevFile net ew eso dso).discordInvoked ∧
      (monitorMain (some s) prevFile net ew eso' dso').exitCode =
        (monitorMain (some s) prevFile net ew eso dso).exitCode) := by
  by_cases hs : s = ""
  · subst hs
    exact absurd rfl hch
  · have hne : ((checkWebsites (parseWebsites s) (load_previous_hashes prevFile)
        (fun u => get_page_hash (net u))).2).isEmpty = false := by
      rw [monitorMain_changed_eq s prevFile net ew eso dso hs] at hch
      rw [List.isEmpty_eq_false]
      rw [checkWebsites_changed]
      exact hch
    refine ⟨?_, ?_, ?_, ?_, ?_⟩
    · simp [monitorMain, hs, hne]
    · simp [monitorMain, hs, hne]
    · simp [monitorMain, hs, hne]
    · intro hew
      simp [monitorMain, hs, hne, hew]
    · intro eso' dso'
      simp [monitorMain, hs, hne]

/-- Claim C8: state-store round trip: saving any URL-to-fingerprint mapping
with `save_hashes` and loading the resulting file content with
`load_previous_hashes` yields back exactly the same mapping. -/
theorem claim_C8_state_roundtrip (m : List (String × String)) :
    load_previous_hashes (some (save_hashes m)) = m :=
  load_save_roundtrip m

/-- Claim C9: the configuration loader returns exactly the list described by
the spec: split the value on commas, strip each entry, drop entries empty
after stripping, preserving order; every kept entry is non-empty, and
membership depends only on the split pieces (no URL syntax validation). -/
theorem claim_C9_loader (v : String) :
    parseWebsites v = specTargetList v ∧
    (∀ t ∈ parseWebsites v, t ≠ "") ∧
    (∀ t : String, t ∈ parseWebsites v ↔ t ≠ "" ∧ ∃ piece ∈ splitComma v, pyStrip piece = t) :=
  ⟨parseWebsites_eq_spec v, fun t ht => ((parseWebsites_mem v t).mp ht).1,
    fun t => parseWebsites_mem v t⟩

theorem claim_C9_witness :
    parseWebsites " https://a.example ,," = specTargetList " https://a.example ,," ∧
    (∀ t ∈ parseWebsites " https://a.example ,,", t ≠ "") ∧
    (∀ t : String, t ∈ parseWebsites " https://a.example ,," ↔
      t ≠ "" ∧ ∃ piece ∈ splitComma " https://a.example ,,", pyStrip piece = t) :=
  claim_C9_loader " https://a.example ,,"

/-- Claim C10: the Changed Set is a sublist of the parsed target list (so it
preserves configuration order), and every element of it was fetched
successfully this run and has an entry in the previous state mapping. -/
theorem claim_C10_changed_order
    (s : String) (prevFile : Option String) (net : String → FetchOutcome)
    (ew eso dso : Bool) :
    List.Sublist (monitorMain (some s) prevFile net ew eso dso).changed (parseWebsites s) ∧
    ∀ u ∈ (monitorMain (some s) prevFile net ew eso dso).changed,
      (get_page_hash (net u)).isSome = true ∧
      (dictLookup (load_previous_hashes prevFile) u).isSome = true := by
  by_cases hs : s = ""
  · subst hs
    constructor
    · simp [monitorMain]
    · intro u hu
      exact absurd hu (by simp [monitorMain])
  · rw [monitorMain_changed_eq s prevFile net ew eso dso hs]
    constructor
    · exact List.filter_sublist _
    · intro u hu
      have hpred := (List.mem_filter.mp hu).2
      obtain ⟨h', old, hg, _, hlp, _⟩ :=
        (changedPred_true_iff (load_previous_hashes prevFile)
          (fun u => get_page_hash (net u)) u).mp hpred
      exact ⟨by simp [hg], by simp [hlp]⟩

/-! ## Witness runs -/

theorem claim_C1_witness :
    "https://a.example" ∉
      (monitorMain (some "https://a.example") none fetchOnlyA true true true).changed ∧
    dictLookup [("https://a.example", sha256hex (utf8Encode "x"))] "https://a.example" =
      some (sha256hex (utf8Encode "x")) :=
  claim_C1_first_sight_not_reported "https://a.example" none fetchOnlyA true true true
    "https://a.example" (sha256hex (utf8Encode "x"))
    [("https://a.example", sha256hex (utf8Encode "x"))] rfl (by decide) rfl (by decide)

theorem claim_C2_witness :
    "https://b.example" ∉
      (monitorMain (some "https://a.example,https://b.example") (some prevFileA) fetchScenario
        true true true).changed ∧
    dictLookup [("https://a.example", sha256hex (utf8Encode "x2"))] "https://b.example" = none ∧
    (∀ u h', dictLookup [("https://a.example", sha256hex (utf8Encode "x2"))] u = some h' ↔
      u ∈ parseWebsites "https://a.example,https://b.example" ∧
      get_page_hash (fetchScenario u) = some h') :=
  claim_C2_failed_fetch_dropped "https://a.example,https://b.example" (some prevFileA)
    fetchScenario true true true "https://b.example"
    [("https://a.example", sha256hex (utf8Encode "x2"))] rfl (by decide)

theorem claim_C3_amended_witness :
    (monitorMain (some "https://a.example") none fetchFail true true true).exitCode = 0 ↔
      ∃ s, (some "https://a.example" : Option String) = some s ∧ s ≠ "" :=
  claim_C3_amended_exit_status (some "https://a.example") none fetchFail true true true

theorem claim_C4_witness :
    (monitorMain (some "https://a.example") (some prevFileA) fetchOnlyA
      true true true).changed.count "https://a.example" =
      (parseWebsites "https://a.example").count "https://a.example" ∧
    ((parseWebsites "https://a.example").Nodup →
      (monitorMain (some "https://a.example") (some prevFileA) fetchOnlyA
        true true true).changed.count "https://a.example" = 1) :=
  claim_C4_amended_once_per_occurrence "https://a.example" (some prevFileA) fetchOnlyA
    true true true "https://a.example" (sha256hex (utf8Encode "x")) "H1"
    (by decide) rfl (by decide) (by decide)

theorem claim_C7_witness :
    (monitorMain (some "https://a.example") (some prevFileA) fetchOnlyA
      true true true).discordInvoked = true ∧
    (monitorMain (some "https://a.example") (some prevFileA) fetchOnlyA
      true true true).discordSites =
      (monitorMain (some "https://a.example") (some prevFileA) fetchOnlyA
        true true true).changed ∧
    (monitorMain (some "https://a.example") (some prevFileA) fetchOnlyA
      true true true).emailInvoked = true ∧
    (true = true → (monitorMain (some "https://a.example") (some prevFileA) fetchOnlyA
      true true true).emailSites =
      (monitorMain (some "https://a.example") (some prevFileA) fetchOnlyA
        true true true).changed) ∧
    (∀ eso' dso',
      (monitorMain (some "https://a.example") (some prevFileA) fetchOnlyA
        true eso' dso').changed =
        (monitorMain (some "https://a.example") (some prevFileA) fetchOnlyA
          true true true).changed ∧
      (monitorMain (some "https://a.example") (some prevFileA) fetchOnlyA
        true eso' dso').discordInvoked =
        (monitorMain (some "https://a.example") (some prevFileA) fetchOnlyA
          true true true).discordInvoked ∧
      (monitorMain (some "https://a.example") (some prevFileA) fetchOnlyA
        true eso' dso').exitCode =
        (monitorMain (some "https://a.example") (some prevFileA) fetchOnlyA
          true true true).exitCode) :=
  claim_C7_amended_notification "https://a.example" (some prevFileA) fetchOnlyA
    true true true (by decide)

theorem claim_C10_witness :
    List.Sublist (monitorMain (some "https://a.example") (some prevFileA) fetchOnlyA
      true true true).changed (parseWebsites "https://a.example") ∧
    ∀ u ∈ (monitorMain (some "https://a.example") (some prevFileA) fetchOnlyA
      true true true).changed,
      (get_page_hash (fetchOnlyA u)).isSome = true ∧
      (dictLookup (load_previous_hashes (some prevFileA)) u).isSome = true :=
  claim_C10_changed_order "https://a.example" (some prevFileA) fetchOnlyA true true true
